import Mathlib

/-!
Verification development for the `collector.py` asset-consolidation script.

The Python source is shallowly embedded: every RPC interaction is an oracle
given as explicit data (an `Option`/`Except` value models a call that either
answers or raises), machine integers are `Nat`/`ℚ`, and each Python function
is translated to a Lean function of the same name.  Checksum normalisation
(`Web3.to_checksum_address`) is modelled as the identity on address strings.
-/

abbrev Addr := String

/-! ## Log scanner: window generation (`find_tokens_from_transactions`)

The source walks the block range with
`while current < current_block: batch_end = min(current + batch_size, current_block); ...; current = batch_end + 1`.
`scanLoop head W current` returns the list of `(fromBlock, toBlock)` pairs the
loop issues queries for.  `start_block = max(0, head - limit)` is exactly
truncated subtraction on `Nat`.
-/

def scanLoop (head W : Nat) (current : Nat) : List (Nat × Nat) :=
  if h : current < head then
    (current, min (current + W) head) :: scanLoop head W (min (current + W) head + 1)
  else
    []
termination_by head - current
decreasing_by
  have hm : current ≤ min (current + W) head := le_min (Nat.le_add_right _ _) (Nat.le_of_lt h)
  omega

def batch_size : Nat := 5000

def scanWindows (head limit_blocks : Nat) : List (Nat × Nat) :=
  scanLoop head batch_size (head - limit_blocks)

/-! ## Log scanner: per-window retry loop (`find_tokens_from_transactions`)

Each window attempt performs two `eth_get_logs` queries (account as receiver,
then account as sender); either query can raise.  An exception whose message
contains "503"/"Service Unavailable" is a transient error; the loop sleeps
`(retry + 1) * 2` seconds and retries while `retry < retry_max - 1`, otherwise
it gives up on the window.  Any other error abandons the window at once.
Addresses from a query that succeeded before the failing one stay in the
accumulated set, exactly as in the source where `found_tokens.add` runs
between the two queries.
-/

inductive RpcErr where
  | transient
  | other
deriving DecidableEq

structure AttemptO where
  toQ : Except RpcErr (List Addr)
  fromQ : Except RpcErr (List Addr)

def retry_max : Nat := 3

def runAttempt (found : Finset Addr) (a : AttemptO) : Finset Addr × Option RpcErr :=
  match a.toQ with
  | Except.error e => (found, some e)
  | Except.ok A =>
    match a.fromQ with
    | Except.error e => (found ∪ (A.filter (fun x => x ≠ "")).toFinset, some e)
    | Except.ok B =>
      (found ∪ (A.filter (fun x => x ≠ "")).toFinset ∪ (B.filter (fun x => x ≠ "")).toFinset,
        none)

def runWindow (att : Nat → AttemptO) : Nat → Nat → Finset Addr → Finset Addr × List Nat
  | 0, _, found => (found, [])
  | fuel + 1, retry, found =>
    match runAttempt found (att retry) with
    | (f, none) => (f, [])
    | (f, some RpcErr.transient) =>
      if retry < retry_max - 1 then
        let wait := (retry + 1) * 2
        let rest := runWindow att fuel (retry + 1) f
        (rest.1, wait :: rest.2)
      else
        (f, [])
    | (f, some RpcErr.other) => (f, [])

def scanWindowsRun (windows : List (Nat → AttemptO)) (found : Finset Addr) : Finset Addr :=
  windows.foldl (fun f w => (runWindow w retry_max 0 f).1) found

def find_tokens_from_transactions (att : Nat × Nat → Nat → AttemptO) (head limit_blocks : Nat) :
    Finset Addr :=
  ((scanWindows head limit_blocks).map att).foldl (fun f w => (runWindow w retry_max 0 f).1) ∅

/-! ## Asset classifier (`get_token_balance`, `scan_wallet_all_tokens`)

`Provider` packages every RPC oracle the script consumes; a field returning
`none` models the underlying call raising an exception.
-/

structure Provider where
  nativeBalance : Addr → Option Nat
  erc20BalanceDecimals : Addr → Addr → Option (Nat × Nat)
  erc20Symbol : Addr → Option String
  erc20Name : Addr → Option String
  erc721Balance : Addr → Addr → Option Nat
  erc721SymbolName : Addr → Option (String × String)
  tokenOfOwnerByIndex : Addr → Addr → Nat → Option Nat
  foundTokens : Addr → List Addr

structure TokenInfo where
  address : Addr
  symbol : String
  name : String
  balance : Nat
  balanceFormatted : ℚ
  decimals : Nat
  type : String
deriving DecidableEq

def get_token_balance (p : Provider) (address token_address : Addr) : Nat × Nat :=
  (p.erc20BalanceDecimals address token_address).getD (0, 18)

def get_token_symbol (p : Provider) (token_address : Addr) : String :=
  (p.erc20Symbol token_address).getD ("UNKNOWN")

def get_token_name (p : Provider) (token_address : Addr) : String :=
  (p.erc20Name token_address).getD ("Unknown Token")

def classifyToken (p : Provider) (address token_address : Addr) : List TokenInfo :=
  let bd := get_token_balance p address token_address
  if 0 < bd.1 then
    [⟨token_address, get_token_symbol p token_address, get_token_name p token_address,
      bd.1, (bd.1 : ℚ) / 10 ^ bd.2, bd.2, ("ERC-20")⟩]
  else
    match p.erc721Balance address token_address with
    | none => []
    | some b =>
      if 0 < b then
        let sn := (p.erc721SymbolName token_address).getD (("NFT"), ("NFT Collection"))
        [⟨token_address, sn.1, sn.2, b, (b : ℚ), 0, ("ERC-721")⟩]
      else
        []

def scan_wallet_all_tokens (p : Provider) (address : Addr) : List TokenInfo :=
  (match p.nativeBalance address with
   | some b =>
     if 0 < b then
       [⟨("BASE"), ("BASE"), ("Base Native Token"), b, (b : ℚ) / 10 ^ 18, 18, ("NATIVE")⟩]
     else
       []
   | none => []) ++
  (p.foundTokens address).flatMap (classifyToken p address)

/-! ## Inventory aggregator (`scan_all_wallets`)

`all_tokens` is a Python dict keyed by asset address; insertion order is
preserved, so it is modelled as an association list.  A missing key first gets
a fresh record with `total_balance = 0` and no wallet entries, then the
running total and the per-wallet list are updated unconditionally.
-/

structure AssetRecord where
  symbol : String
  name : String
  type : String
  decimals : Nat
  total_balance : ℚ
  wallets : List (Addr × ℚ)
deriving DecidableEq

def addToken (acc : List (Addr × AssetRecord)) (wallet : Addr) (t : TokenInfo) :
    List (Addr × AssetRecord) :=
  let acc' : List (Addr × AssetRecord) :=
    match acc.lookup t.address with
    | none => acc ++ [(t.address, ⟨t.symbol, t.name, t.type, t.decimals, 0, []⟩)]
    | some _ => acc
  acc'.map (fun e : Addr × AssetRecord =>
    if e.1 = t.address then
      (e.1, { e.2 with
        total_balance := e.2.total_balance + t.balanceFormatted,
        wallets := e.2.wallets ++ [(wallet, t.balanceFormatted)] })
    else
      e)

def scan_all_wallets (p : Provider) (accounts : List Addr) : List (Addr × AssetRecord) :=
  accounts.foldl
    (fun acc a => (scan_wallet_all_tokens p a).foldl (fun acc2 t => addToken acc2 a t) acc)
    []

/-! ## Transfer dispatcher (`send_erc20_transaction`, `send_nft_transaction`)

`Chain.txCount` is the account's confirmed transaction count as reported by
`eth_getTransactionCount`; a transfer whose inclusion is observed bumps it.
`TxOracle` gives the outcome of the three fallible steps: signing, raw
submission, and the 120 s receipt wait (whose timeout raises like any other
exception and is caught by the same handler).  The source returns a dict
`{'success': True, 'txHash': ..., 'receipt': ...}` on success and
`{'success': False, 'error': str(e)}` on any exception: `SendRes` is that
dict, `SendTrace` additionally records ghost observations (the nonce placed
in the built transaction, and whether the raw submission was accepted).
-/

structure Chain where
  txCount : Nat
deriving DecidableEq

def get_transaction_count (c : Chain) : Nat :=
  c.txCount

structure TxOracle where
  sign : Except String Unit
  submit : Except String Nat
  confirm : Except String Nat

structure SendRes where
  success : Bool
  txHash : Option Nat
  blockNumber : Option Nat
  error : Option String
deriving DecidableEq

structure SendTrace where
  result : SendRes
  nonceUsed : Nat
  submitted : Bool
deriving DecidableEq

def send_erc20_transaction (o : TxOracle) (c : Chain) : SendTrace × Chain :=
  let nonce := get_transaction_count c
  match o.sign with
  | Except.error e => (⟨⟨false, none, none, some e⟩, nonce, false⟩, c)
  | Except.ok _ =>
    match o.submit with
    | Except.error e => (⟨⟨false, none, none, some e⟩, nonce, false⟩, c)
    | Except.ok h =>
      match o.confirm with
      | Except.error e => (⟨⟨false, none, none, some e⟩, nonce, true⟩, c)
      | Except.ok b => (⟨⟨true, some h, some b, none⟩, nonce, true⟩, ⟨c.txCount + 1⟩)

def send_nft_transaction (o : TxOracle) (_token_id : Nat) (c : Chain) : SendTrace × Chain :=
  let nonce := get_transaction_count c
  match o.sign with
  | Except.error e => (⟨⟨false, none, none, some e⟩, nonce, false⟩, c)
  | Except.ok _ =>
    match o.submit with
    | Except.error e => (⟨⟨false, none, none, some e⟩, nonce, false⟩, c)
    | Except.ok h =>
      match o.confirm with
      | Except.error e => (⟨⟨false, none, none, some e⟩, nonce, true⟩, c)
      | Except.ok b => (⟨⟨true, some h, some b, none⟩, nonce, true⟩, ⟨c.txCount + 1⟩)

def accountingDelta (r : SendRes) : Nat × Nat :=
  if r.success then (1, 0) else (0, 1)

def get_nft_token_ids (p : Provider) (address nft_address : Addr) : List Nat :=
  match p.erc721Balance address nft_address with
  | none => []
  | some b => (List.range b).filterMap (fun i => p.tokenOfOwnerByIndex address nft_address i)

/-! ## Per-wallet dispatch loops (`collect_funds`, lines 797-848)

`nftTransferLoop` mirrors `for token_id in token_ids: ...` including the
delay condition `token_ids.index(token_id) < len(token_ids) - 1`, which looks
up the FIRST occurrence of the current identifier in the full list.
`sleeps` records, per transfer, whether the inter-operation delay ran after it.
-/

structure NftLoopOut where
  sentIds : List Nat
  successCount : Nat
  errorCount : Nat
  nftCollected : Nat
  submitted : Nat
  sleeps : List Bool
deriving DecidableEq

def nftTransferLoop (sendO : Nat → TxOracle) (all : List Nat) :
    List Nat → Nat → Chain → NftLoopOut × Chain
  | [], _, c => (⟨[], 0, 0, 0, 0, []⟩, c)
  | id :: rest, k, c =>
    let sent := send_nft_transaction (sendO k) id c
    let sleepAfter := decide (all.indexOf id < all.length - 1)
    let restOut := nftTransferLoop sendO all rest (k + 1) sent.2
    (⟨id :: restOut.1.sentIds,
      (if sent.1.result.success then 1 else 0) + restOut.1.successCount,
      (if sent.1.result.success then 0 else 1) + restOut.1.errorCount,
      (if sent.1.result.success then 1 else 0) + restOut.1.nftCollected,
      (if sent.1.submitted then 1 else 0) + restOut.1.submitted,
      sleepAfter :: restOut.1.sleeps⟩, restOut.2)

structure Erc20Step where
  dispatched : Bool
  submitted : Nat
  successDelta : Nat
  errorDelta : Nat
  collectedDelta : ℚ
deriving DecidableEq

def processWalletErc20 (p : Provider) (o : TxOracle) (wallet token : Addr) (c : Chain) :
    Erc20Step × Chain :=
  let bd := get_token_balance p wallet token
  if 0 < bd.1 then
    let sent := send_erc20_transaction o c
    (if sent.1.result.success then
       ⟨true, if sent.1.submitted then 1 else 0, 1, 0, (bd.1 : ℚ) / 10 ^ bd.2⟩
     else
       ⟨true, if sent.1.submitted then 1 else 0, 0, 1, 0⟩, sent.2)
  else
    (⟨false, 0, 0, 0, 0⟩, c)

/-! ## Collection orchestrator (`load_private_keys`, `get_provider`, `collect_funds`)

`RunWorld` packages everything external: the `.env` file contents (`none`
models a missing or unreadable file), the configured recipient, the liveness
probe outcome of each configured RPC URL, key-to-account derivation, the
provider oracles, the user's asset selection (`none` models cancellation),
the per-wallet send-step oracles, and the per-wallet starting transaction
count.  `Report` captures the observable summary of a run: the phase it ended
in, how many accounts were scanned, how many raw transactions were accepted,
and the summary counters that the source prints.
-/

structure SelectedToken where
  address : Addr
  type : String
  symbol : String
  name : String
deriving DecidableEq

structure RunWorld where
  envLines : Option (List String)
  recipient : String
  probes : List (Option Nat)
  fromKey : String → Option Addr
  provider : Provider
  selection : Option SelectedToken
  sendO : Addr → Nat → TxOracle
  chainCount : Addr → Nat

inductive Phase where
  | noKeys
  | noRecipient
  | noEndpoint
  | noAccounts
  | cancelled
  | nativeUnsupported
  | completed
deriving DecidableEq

structure Report where
  phase : Phase
  scannedAccounts : Nat
  submitted : Nat
  successCount : Nat
  errorCount : Nat
  totalProcessed : Nat
  totalCollectedTokens : ℚ
  totalCollectedNft : Nat
deriving DecidableEq

def pyStrip (s : String) : String :=
  ⟨((s.data.dropWhile Char.isWhitespace).reverse.dropWhile Char.isWhitespace).reverse⟩

def pyStartsWith (s pre : String) : Bool :=
  pre.data.isPrefixOf s.data

def load_private_keys (envLines : Option (List String)) : List String :=
  match envLines with
  | none => []
  | some lines =>
    lines.filterMap (fun l =>
      let s := pyStrip l
      if s ≠ "" ∧ ¬ pyStartsWith s ("#") ∧ ¬ pyStartsWith s ("//") then some s else none)

def get_provider (probes : List (Option Nat)) : Option Nat :=
  probes.findSome? id

def emptyReport (ph : Phase) (scanned : Nat) : Report :=
  ⟨ph, scanned, 0, 0, 0, 0, 0, 0⟩

def dispatchWallet (w : RunWorld) (sel : SelectedToken) (a : Addr) : Report :=
  if sel.type = "ERC-20" then
    let step := (processWalletErc20 w.provider (w.sendO a 0) a sel.address ⟨w.chainCount a⟩).1
    ⟨Phase.completed, 0, step.submitted, step.successDelta, step.errorDelta, 1,
      step.collectedDelta, 0⟩
  else if sel.type = "ERC-721" then
    let ids := get_nft_token_ids w.provider a sel.address
    if ids.isEmpty then
      ⟨Phase.completed, 0, 0, 0, 0, 1, 0, 0⟩
    else
      let out := (nftTransferLoop (w.sendO a) ids ids 0 ⟨w.chainCount a⟩).1
      ⟨Phase.completed, 0, out.submitted, out.successCount, out.errorCount, 1, 0,
        out.nftCollected⟩
  else
    ⟨Phase.completed, 0, 0, 0, 0, 1, 0, 0⟩

def addReport (r s : Report) : Report :=
  ⟨r.phase, r.scannedAccounts, r.submitted + s.submitted, r.successCount + s.successCount,
    r.errorCount + s.errorCount, r.totalProcessed + s.totalProcessed,
    r.totalCollectedTokens + s.totalCollectedTokens, r.totalCollectedNft + s.totalCollectedNft⟩

def dispatchAll (w : RunWorld) (sel : SelectedToken) (accounts : List Addr) : Report :=
  accounts.foldl (fun r a => addReport r (dispatchWallet w sel a))
    (emptyReport Phase.completed accounts.length)

def collect_funds (w : RunWorld) : Report :=
  let keys := load_private_keys w.envLines
  if keys.isEmpty then
    emptyReport Phase.noKeys 0
  else if w.recipient = "" ∨ w.recipient = "0x..." then
    emptyReport Phase.noRecipient 0
  else
    match get_provider w.probes with
    | none => emptyReport Phase.noEndpoint 0
    | some _ =>
      let accounts := keys.filterMap w.fromKey
      if accounts.isEmpty then
        emptyReport Phase.noAccounts 0
      else
        let _allTokens := scan_all_wallets w.provider accounts
        match w.selection with
        | none => emptyReport Phase.cancelled accounts.length
        | some sel =>
          if sel.address = "BASE" then
            emptyReport Phase.nativeUnsupported accounts.length
          else
            { dispatchAll w sel accounts with scannedAccounts := accounts.length }

def mainExitCode (w : RunWorld) : Nat :=
  let _report := collect_funds w
  0

/-! ## Concrete inputs used by counterexamples and witnesses -/

def attC3 : Nat → AttemptO :=
  fun _ => ⟨Except.ok [("0xA")], Except.error RpcErr.transient⟩

def attC3bad : Nat → AttemptO :=
  fun _ => ⟨Except.error RpcErr.transient, Except.error RpcErr.transient⟩

def attC3good : Nat → AttemptO :=
  fun _ => ⟨Except.ok [("0xB")], Except.ok [("0xC")]⟩

def oTimeout : TxOracle :=
  ⟨Except.ok (), Except.ok 777, Except.error ("Transaction is not in the chain after 120 seconds")⟩

def oReject : TxOracle :=
  ⟨Except.ok (), Except.error ("insufficient funds for gas"), Except.ok 0⟩

def oOk : TxOracle :=
  ⟨Except.ok (), Except.ok 1, Except.ok 10⟩

def provC6 : Provider :=
  ⟨fun _ => some 3,
   fun _ _ => some (0, 6),
   fun _ => some ("TOK"),
   fun _ => some ("Token"),
   fun _ _ => none,
   fun _ => none,
   fun _ _ _ => none,
   fun _ => [("0xT")]⟩

def provC7 : Provider :=
  ⟨fun _ => none,
   fun _ _ => some (5, 0),
   fun _ => some ("TOK"),
   fun _ => some ("Token"),
   fun _ _ => none,
   fun _ => none,
   fun _ _ _ => none,
   fun _ => [("0xT")]⟩

def provC5 : Provider :=
  ⟨fun _ => some 5,
   fun _ _ => none,
   fun _ => none,
   fun _ => none,
   fun _ _ => none,
   fun _ => none,
   fun _ _ _ => none,
   fun _ => []⟩

def worldC1 : RunWorld :=
  ⟨some [], ("0xD"), [none, none], fun _ => none, provC5, none, fun _ _ => oOk, fun _ => 0⟩

def worldC5 : RunWorld :=
  ⟨some [("k1")], ("0xD"), [some 100], fun _ => some ("0xW1"), provC5,
   some ⟨("BASE"), ("NATIVE"), ("BASE"), ("Base Native Token")⟩, fun _ _ => oOk, fun _ => 0⟩

def tokC7 : TokenInfo :=
  ⟨("0xT"), ("TOK"), ("Token"), 5, 5, 0, ("ERC-20")⟩

def recC7 : AssetRecord :=
  ⟨("TOK"), ("Token"), ("ERC-20"), 0, 10, [(("0xW1"), 5), (("0xW2"), 5)]⟩

def provC10 : Provider :=
  ⟨fun _ => none,
   fun _ _ => some (0, 18),
   fun _ => none,
   fun _ => none,
   fun _ _ => none,
   fun _ => none,
   fun _ _ _ => none,
   fun _ => []⟩

theorem scanLoop_eq_nil (head W c : Nat) (h : ¬ c < head) : scanLoop head W c = [] := by
  unfold scanLoop
  simp [h]

theorem scanLoop_eq_cons (head W c : Nat) (h : c < head) :
    scanLoop head W c = (c, min (c + W) head) :: scanLoop head W (min (c + W) head + 1) := by
  conv_lhs => unfold scanLoop
  simp [h]

theorem scanLoop_length (head W : Nat) :
    ∀ n c, head - c ≤ n → (scanLoop head W c).length = (head - c + W) / (W + 1) := by
  intro n
  induction n with
  | zero =>
    intro c hc
    rw [scanLoop_eq_nil head W c (by omega)]
    have h0 : head - c = 0 := by omega
    rw [h0, List.length_nil, Nat.zero_add]
    exact (Nat.div_eq_of_lt (by omega)).symm
  | succ n ih =>
    intro c hc
    by_cases h : c < head
    · rw [scanLoop_eq_cons head W c h, List.length_cons]
      rcases le_or_lt head (c + W) with hcw | hcw
      · have he : min (c + W) head = head := min_eq_right hcw
        rw [he]
        rw [scanLoop_eq_nil head W (head + 1) (by omega), List.length_nil]
        have h1 : 1 * (W + 1) ≤ head - c + W := by omega
        have h2 : head - c + W < (1 + 1) * (W + 1) := by omega
        have := Nat.div_eq_of_lt_le h1 h2
        omega
      · have he : min (c + W) head = c + W := min_eq_left (Nat.le_of_lt hcw)
        rw [he, ih (c + W + 1) (by omega)]
        have h1 : head - (c + W + 1) + W = head - c - 1 := by omega
        have h2 : head - c + W = (head - c - 1) + (W + 1) := by omega
        rw [h1, h2, Nat.add_div_right _ (by omega : 0 < W + 1)]
    · rw [scanLoop_eq_nil head W c h]
      have h0 : head - c = 0 := by omega
      rw [h0, List.length_nil, Nat.zero_add]
      exact (Nat.div_eq_of_lt (by omega)).symm

theorem scanLoop_head_start (head W c : Nat) (w : Nat × Nat)
    (h : (scanLoop head W c).head? = some w) : w.1 = c := by
  by_cases hc : c < head
  · rw [scanLoop_eq_cons head W c hc] at h
    simp only [List.head?_cons, Option.some.injEq] at h
    rw [← h]
  · rw [scanLoop_eq_nil head W c hc] at h
    simp at h

theorem scanLoop_chain (head W : Nat) :
    ∀ n c, head - c ≤ n →
      List.Chain' (fun a b : Nat × Nat => a.2 + 1 = b.1) (scanLoop head W c) := by
  intro n
  induction n with
  | zero =>
    intro c hc
    rw [scanLoop_eq_nil head W c (by omega)]
    exact List.chain'_nil
  | succ n ih =>
    intro c hc
    by_cases h : c < head
    · rw [scanLoop_eq_cons head W c h]
      rw [List.chain'_cons']
      constructor
      · intro b hb
        have := scanLoop_head_start head W (min (c + W) head + 1) b hb
        simp [this]
      · apply ih
        have hm : c ≤ min (c + W) head := le_min (Nat.le_add_right _ _) (Nat.le_of_lt h)
        omega
    · rw [scanLoop_eq_nil head W c h]
      exact List.chain'_nil

theorem scanLoop_mem_bounds (head W : Nat) :
    ∀ n c, head - c ≤ n → ∀ w ∈ scanLoop head W c,
      c ≤ w.1 ∧ w.1 ≤ w.2 ∧ w.2 ≤ head ∧ w.2 = min (w.1 + W) head := by
  intro n
  induction n with
  | zero =>
    intro c hc w hw
    rw [scanLoop_eq_nil head W c (by omega)] at hw
    simp at hw
  | succ n ih =>
    intro c hc w hw
    by_cases h : c < head
    · rw [scanLoop_eq_cons head W c h] at hw
      have hm : c ≤ min (c + W) head := le_min (Nat.le_add_right _ _) (Nat.le_of_lt h)
      rcases List.mem_cons.mp hw with hw | hw
      · subst hw
        refine ⟨le_refl c, hm, min_le_right _ _, rfl⟩
      · have := ih (min (c + W) head + 1) (by omega) w hw
        exact ⟨by omega, this.2.1, this.2.2.1, this.2.2.2⟩
    · rw [scanLoop_eq_nil head W c h] at hw
      simp at hw

theorem scanLoop_pairwise (head W : Nat) :
    ∀ n c, head - c ≤ n →
      List.Pairwise (fun a b : Nat × Nat => a.2 < b.1) (scanLoop head W c) := by
  intro n
  induction n with
  | zero =>
    intro c hc
    rw [scanLoop_eq_nil head W c (by omega)]
    exact List.Pairwise.nil
  | succ n ih =>
    intro c hc
    by_cases h : c < head
    · rw [scanLoop_eq_cons head W c h]
      have hm : c ≤ min (c + W) head := le_min (Nat.le_add_right _ _) (Nat.le_of_lt h)
      refine List.pairwise_cons.mpr ⟨?_, ih (min (c + W) head + 1) (by omega)⟩
      intro b hb
      have := scanLoop_mem_bounds head W n (min (c + W) head + 1) (by omega) b hb
      omega
    · rw [scanLoop_eq_nil head W c h]
      exact List.Pairwise.nil

theorem scanLoop_cover (head W : Nat) :
    ∀ n c, head - c ≤ n → ∀ b, c ≤ b → b ≤ head →
      (∃ w ∈ scanLoop head W c, w.1 ≤ b ∧ b ≤ w.2) ∨ (b = head ∧ (W + 1) ∣ (head - c)) := by
  intro n
  induction n with
  | zero =>
    intro c hc b hcb hbh
    right
    constructor
    · omega
    · have h0 : head - c = 0 := by omega
      rw [h0]
      exact dvd_zero _
  | succ n ih =>
    intro c hc b hcb hbh
    by_cases h : c < head
    · by_cases hb : b ≤ min (c + W) head
      · left
        refine ⟨(c, min (c + W) head), ?_, hcb, hb⟩
        rw [scanLoop_eq_cons head W c h]
        exact List.mem_cons_self _ _
      · push_neg at hb
        have hmh : min (c + W) head < head := by omega
        have hcw : c + W < head := by
          rcases le_or_lt head (c + W) with h1 | h1
          · rw [min_eq_right h1] at hmh
            omega
          · exact h1
        have he : min (c + W) head = c + W := min_eq_left (Nat.le_of_lt hcw)
        rw [he] at hb
        rcases ih (c + W + 1) (by omega) b (by omega) hbh with hcov | ⟨hbe, hdvd⟩
        · left
          obtain ⟨w, hw, hwb⟩ := hcov
          refine ⟨w, ?_, hwb⟩
          rw [scanLoop_eq_cons head W c h, he]
          exact List.mem_cons_of_mem _ hw
        · right
          refine ⟨hbe, ?_⟩
          obtain ⟨k, hk⟩ := hdvd
          refine ⟨k + 1, ?_⟩
          rw [Nat.mul_succ]
          omega
    · right
      constructor
      · omega
      · have h0 : head - c = 0 := by omega
        rw [h0]
        exact dvd_zero _

theorem scanLoop_gap (head W : Nat) :
    ∀ n c, head - c ≤ n → (W + 1) ∣ (head - c) →
      ∀ w ∈ scanLoop head W c, w.2 < head := by
  intro n
  induction n with
  | zero =>
    intro c hc _ w hw
    rw [scanLoop_eq_nil head W c (by omega)] at hw
    simp at hw
  | succ n ih =>
    intro c hc hdvd w hw
    by_cases h : c < head
    · obtain ⟨k, hk⟩ := hdvd
      have hk0 : k ≠ 0 := by
        intro h0
        rw [h0, Nat.mul_zero] at hk
        omega
      obtain ⟨j, rfl⟩ : ∃ j, k = j + 1 := ⟨k - 1, by omega⟩
      rw [Nat.mul_succ] at hk
      have hcw : c + W < head := by omega
      have he : min (c + W) head = c + W := min_eq_left (Nat.le_of_lt hcw)
      rw [scanLoop_eq_cons head W c h, he] at hw
      rcases List.mem_cons.mp hw with hw | hw
      · subst hw
        exact hcw
      · refine ih (c + W + 1) (by omega) ⟨j, by omega⟩ w hw
    · rw [scanLoop_eq_nil head W c h] at hw
      simp at hw

/-- C2 (amended): for lookback depth `0 < D ≤ head` and batch size `W`, the
source's window loop produces exactly `ceil(D / (W + 1))` windows (each window
spans `W + 1` blocks, since `toBlock = min(fromBlock + W, head)` and the next
`fromBlock` is `toBlock + 1`); the windows are contiguous
(`toBlock_i + 1 = fromBlock_{i+1}`), pairwise non-overlapping, start at
`head - D`, and cover every block of `[head - D, head]` except that the head
block itself is missed exactly when `(W + 1) ∣ D`. -/
theorem c2_scan_windows_amended (head D W : Nat) (hD : 0 < D) (hDh : D ≤ head) :
    (scanLoop head W (head - D)).length = (D + W) / (W + 1)
  ∧ List.Chain' (fun a b : Nat × Nat => a.2 + 1 = b.1) (scanLoop head W (head - D))
  ∧ List.Pairwise (fun a b : Nat × Nat => a.2 < b.1) (scanLoop head W (head - D))
  ∧ (∀ w ∈ scanLoop head W (head - D), head - D ≤ w.1 ∧ w.1 ≤ w.2 ∧ w.2 ≤ head)
  ∧ (∀ b, head - D ≤ b → b ≤ head →
      (∃ w ∈ scanLoop head W (head - D), w.1 ≤ b ∧ b ≤ w.2) ∨ (b = head ∧ (W + 1) ∣ D))
  ∧ ((W + 1) ∣ D → ∀ w ∈ scanLoop head W (head - D), w.2 < head) := by
  have hc : head - (head - D) = D := by omega
  refine ⟨?_, ?_, ?_, ?_, ?_, ?_⟩
  · have h := scanLoop_length head W D (head - D) (by omega)
    rw [hc] at h
    exact h
  · exact scanLoop_chain head W D (head - D) (by omega)
  · exact scanLoop_pairwise head W D (head - D) (by omega)
  · intro w hw
    have h := scanLoop_mem_bounds head W D (head - D) (by omega) w hw
    exact ⟨h.1, h.2.1, h.2.2.1⟩
  · intro b hb1 hb2
    rcases scanLoop_cover head W D (head - D) (by omega) b hb1 hb2 with h | ⟨h1, h2⟩
    · exact Or.inl h
    · rw [hc] at h2
      exact Or.inr ⟨h1, h2⟩
  · intro hdvd
    refine scanLoop_gap head W D (head - D) (by omega) ?_
    rw [hc]
    exact hdvd

/-- C2 counterexample: with the source's batch size 5000 and a lookback of
5001 blocks from head 10000, the loop issues the single window
`[4999, 9999]` — not the `ceil(5001 / 5000) = 2` windows the claim demands —
and no window contains the head block 10000, so `[head - D, head]` is not
covered. -/
theorem c2_counterexample :
    scanWindows 10000 5001 = [(4999, 9999)]
  ∧ (scanWindows 10000 5001).length ≠ (5001 + 5000 - 1) / 5000
  ∧ ¬ ∃ w ∈ scanWindows 10000 5001, w.1 ≤ 10000 ∧ 10000 ≤ w.2 := by
  have h1 : scanWindows 10000 5001 = [(4999, 9999)] := by
    show scanLoop 10000 5000 (10000 - 5001) = [(4999, 9999)]
    have hs : (10000 - 5001 : Nat) = 4999 := by omega
    rw [hs, scanLoop_eq_cons 10000 5000 4999 (by omega)]
    have hmin : min (4999 + 5000) 10000 = 9999 := by omega
    rw [hmin, scanLoop_eq_nil 10000 5000 (9999 + 1) (by omega)]
  refine ⟨h1, ?_, ?_⟩
  · rw [h1]
    decide
  · rw [h1]
    decide

/-- C2 witness: the amended statement instantiated at head 10000, lookback
7500, batch size 5000: two windows `[2500, 7500]`, `[7501, 10000]`. -/
theorem c2_amended_witness :
    0 < 7500 ∧ 7500 ≤ 10000 ∧
    ((scanLoop 10000 5000 (10000 - 7500)).length = (7500 + 5000) / (5000 + 1)
  ∧ List.Chain' (fun a b : Nat × Nat => a.2 + 1 = b.1) (scanLoop 10000 5000 (10000 - 7500))
  ∧ List.Pairwise (fun a b : Nat × Nat => a.2 < b.1) (scanLoop 10000 5000 (10000 - 7500))
  ∧ (∀ w ∈ scanLoop 10000 5000 (10000 - 7500),
      10000 - 7500 ≤ w.1 ∧ w.1 ≤ w.2 ∧ w.2 ≤ 10000)
  ∧ (∀ b, 10000 - 7500 ≤ b → b ≤ 10000 →
      (∃ w ∈ scanLoop 10000 5000 (10000 - 7500), w.1 ≤ b ∧ b ≤ w.2)
      ∨ (b = 10000 ∧ (5000 + 1) ∣ 7500))
  ∧ ((5000 + 1) ∣ 7500 → ∀ w ∈ scanLoop 10000 5000 (10000 - 7500), w.2 < 10000)) :=
  ⟨by omega, by omega, c2_scan_windows_amended 10000 7500 5000 (by omega) (by omega)⟩

theorem runAttempt_toQ_err (found : Finset Addr) (a : AttemptO) (e : RpcErr)
    (h : a.toQ = Except.error e) : runAttempt found a = (found, some e) := by
  unfold runAttempt
  rw [h]

theorem runWindow_congr (att att' : Nat → AttemptO) :
    ∀ fuel retry found, (∀ i, retry ≤ i → i < retry + fuel → att i = att' i) →
      runWindow att fuel retry found = runWindow att' fuel retry found := by
  intro fuel
  induction fuel with
  | zero => intro retry found _; rfl
  | succ fuel ih =>
    intro retry found h
    have h0 : att retry = att' retry := h retry le_rfl (by omega)
    simp only [runWindow]
    rw [h0]
    rcases hE : runAttempt found (att' retry) with ⟨f, e⟩
    rcases e with _ | e
    · simp [hE]
    · rcases e with _ | _
      · simp only [hE]
        by_cases hlt : retry < retry_max - 1
        · simp only [if_pos hlt]
          rw [ih (retry + 1) f (fun i h1 h2 => h i (by omega) (by omega))]
        · simp only [if_neg hlt]
      · simp [hE]

theorem runWindow_all_transient (att : Nat → AttemptO) (found : Finset Addr)
    (h : ∀ i, i < retry_max → (att i).toQ = Except.error RpcErr.transient) :
    runWindow att retry_max 0 found = (found, [2, 4]) := by
  have h0 := runAttempt_toQ_err found (att 0) RpcErr.transient (h 0 (by norm_num [retry_max]))
  have h1 := runAttempt_toQ_err found (att 1) RpcErr.transient (h 1 (by norm_num [retry_max]))
  have h2 := runAttempt_toQ_err found (att 2) RpcErr.transient (h 2 (by norm_num [retry_max]))
  show runWindow att 3 0 found = (found, [2, 4])
  simp [runWindow, h0, h1, h2, retry_max]

theorem runWindow_other_first (att : Nat → AttemptO) (found : Finset Addr)
    (h : (att 0).toQ = Except.error RpcErr.other) :
    runWindow att retry_max 0 found = (found, []) := by
  have h0 := runAttempt_toQ_err found (att 0) RpcErr.other h
  show runWindow att 3 0 found = (found, [])
  simp [runWindow, h0]

theorem scanWindowsRun_drop_bad (ws1 ws2 : List (Nat → AttemptO)) (att : Nat → AttemptO)
    (found : Finset Addr)
    (h : ∀ i, i < retry_max → (att i).toQ = Except.error RpcErr.transient) :
    scanWindowsRun (ws1 ++ att :: ws2) found = scanWindowsRun (ws1 ++ ws2) found := by
  unfold scanWindowsRun
  rw [List.foldl_append, List.foldl_append, List.foldl_cons]
  congr 1
  rw [runWindow_all_transient att _ h]

/-- C3 (amended): per window, a transient-overload (503) error is retried up
to the fixed bound of `retry_max = 3` attempts (only the first three oracle
answers are ever inspected), with backoff sleeps of 2 s then 4 s between
consecutive attempts and no sleep after the final failure; a window whose
every attempt fails transiently on its first log query is recorded as skipped
with sleeps `[2, 4]` and contributes nothing; any other error class abandons
the window's pair of queries without retry; and deleting any such
fully-failing window from a scan leaves the result of the remaining windows
unchanged, so a scan of N windows with K fully-failing windows terminates
with exactly the candidates of the other N - K. -/
theorem c3_retry_amended :
    (∀ (att att' : Nat → AttemptO) (found : Finset Addr),
      (∀ i, i < retry_max → att i = att' i) →
      runWindow att retry_max 0 found = runWindow att' retry_max 0 found)
  ∧ (∀ (att : Nat → AttemptO) (found : Finset Addr),
      (∀ i, i < retry_max → (att i).toQ = Except.error RpcErr.transient) →
      runWindow att retry_max 0 found = (found, [2, 4]))
  ∧ (∀ (att : Nat → AttemptO) (found : Finset Addr),
      (att 0).toQ = Except.error RpcErr.other →
      runWindow att retry_max 0 found = (found, []))
  ∧ (∀ (ws1 ws2 : List (Nat → AttemptO)) (att : Nat → AttemptO) (found : Finset Addr),
      (∀ i, i < retry_max → (att i).toQ = Except.error RpcErr.transient) →
      scanWindowsRun (ws1 ++ att :: ws2) found = scanWindowsRun (ws1 ++ ws2) found) :=
  ⟨fun att att' found h => runWindow_congr att att' retry_max 0 found
      (fun i h1 h2 => h i (by omega)),
   fun att found h => runWindow_all_transient att found h,
   fun att found h => runWindow_other_first att found h,
   fun ws1 ws2 att found h => scanWindowsRun_drop_bad ws1 ws2 att found h⟩

/-- C3 counterexample: a window whose first log query succeeds with address
"0xA" and whose second query fails transiently on every one of the three
attempts sleeps `[2, 4]` — not the claimed `[2, 4, 6]` — and still
contributes the candidate "0xA", not zero candidates. -/
theorem c3_counterexample :
    runWindow attC3 retry_max 0 ∅ = ({("0xA")}, [2, 4])
  ∧ (runWindow attC3 retry_max 0 ∅).1 ≠ (∅ : Finset Addr)
  ∧ (runWindow attC3 retry_max 0 ∅).2 ≠ [2, 4, 6] := by
  refine ⟨by decide, by decide, by decide⟩

/-- C3 witness: the amended statement applied to a window that fails
transiently on every attempt, starting from an accumulated set `{"0xD"}`. -/
theorem c3_amended_witness :
    (∀ i, i < retry_max → (attC3bad i).toQ = Except.error RpcErr.transient)
  ∧ runWindow attC3bad retry_max 0 {("0xD")} = ({("0xD")}, [2, 4])
  ∧ scanWindowsRun ([attC3good] ++ attC3bad :: []) {("0xD")}
      = scanWindowsRun ([attC3good] ++ []) {("0xD")} :=
  ⟨fun _ _ => rfl,
   c3_retry_amended.2.1 attC3bad {("0xD")} (fun _ _ => rfl),
   c3_retry_amended.2.2.2 [attC3good] [] attC3bad {("0xD")} (fun _ _ => rfl)⟩

/-- C4 (amended): every dispatched transfer terminates in exactly one of TWO
outcomes — success (receipt's block number recorded) or failure (any
exception: signing, submission, or the 120 s confirmation wait, reported as
an error string) — and a confirmation timeout is recorded in the run's
accounting exactly like a failure (`success = False`, error counter
incremented), not distinctly. -/
theorem c4_two_outcomes_amended :
    ∀ (o : TxOracle) (c : Chain),
    (((send_erc20_transaction o c).1.result.success = true
        ∧ (∃ b, (send_erc20_transaction o c).1.result.blockNumber = some b))
      ∨ ((send_erc20_transaction o c).1.result.success = false
        ∧ (send_erc20_transaction o c).1.result.blockNumber = none
        ∧ (∃ e, (send_erc20_transaction o c).1.result.error = some e)))
  ∧ (∀ h e, o.sign = Except.ok () → o.submit = Except.ok h →
      o.confirm = Except.error e →
      (send_erc20_transaction o c).1.result.success = false
      ∧ accountingDelta (send_erc20_transaction o c).1.result = (0, 1)) := by
  intro o c
  rcases o with ⟨s, sb, cf⟩
  constructor
  · cases s <;> cases sb <;> cases cf <;> simp [send_erc20_transaction, accountingDelta]
  · intro h e h1 h2 h3
    cases s <;> cases sb <;> cases cf <;>
      simp_all [send_erc20_transaction, accountingDelta]

/-- C4 counterexample: a transfer whose inclusion is not observed within the
120 s bound (`wait_for_transaction_receipt` raises) is accounted exactly like
a rejected submission — both yield `success = False` and bump the error
counter — so a TimedOut outcome is not recorded distinctly from a Failed
outcome. -/
theorem c4_counterexample :
    accountingDelta (send_erc20_transaction oTimeout ⟨0⟩).1.result
      = accountingDelta (send_erc20_transaction oReject ⟨0⟩).1.result
  ∧ (send_erc20_transaction oTimeout ⟨0⟩).1.result.success = false
  ∧ accountingDelta (send_erc20_transaction oTimeout ⟨0⟩).1.result = (0, 1) :=
  ⟨rfl, rfl, rfl⟩

/-- C4 witness: the amended statement applied to the timed-out oracle. -/
theorem c4_amended_witness :
    oTimeout.sign = Except.ok () ∧ oTimeout.submit = Except.ok 777
  ∧ oTimeout.confirm = Except.error ("Transaction is not in the chain after 120 seconds")
  ∧ ((send_erc20_transaction oTimeout ⟨0⟩).1.result.success = false
      ∧ accountingDelta (send_erc20_transaction oTimeout ⟨0⟩).1.result = (0, 1)) :=
  ⟨rfl, rfl, rfl,
    (c4_two_outcomes_amended oTimeout ⟨0⟩).2 777
      ("Transaction is not in the chain after 120 seconds") rfl rfl rfl⟩

/-- C1 (amended): if the credential file yields no usable key, or no
destination address is configured, or every configured RPC endpoint fails its
liveness probe, then the run halts before scanning or dispatching any account
and zero transactions are submitted — but `collect_funds` merely logs the
failure and returns, so the process exits with code 0, not a non-zero code. -/
theorem c1_preconditions_amended :
    ∀ w : RunWorld,
    (load_private_keys w.envLines = [] ∨ w.recipient = "" ∨ w.recipient = "0x..."
      ∨ get_provider w.probes = none) →
    (collect_funds w).scannedAccounts = 0 ∧ (collect_funds w).submitted = 0
  ∧ (collect_funds w).successCount = 0 ∧ (collect_funds w).phase ≠ Phase.completed
  ∧ mainExitCode w = 0 := by
  intro w hw
  by_cases hk : (load_private_keys w.envLines).isEmpty
  · simp [collect_funds, hk, emptyReport, mainExitCode]
  · by_cases hr : w.recipient = "" ∨ w.recipient = "0x..."
    · simp [collect_funds, hk, hr, emptyReport, mainExitCode]
    · rcases hp : get_provider w.probes with _ | p
      · simp [collect_funds, hk, hr, hp, emptyReport, mainExitCode]
      · exfalso
        rcases hw with h | h | h | h
        · rw [h] at hk
          exact hk rfl
        · exact hr (Or.inl h)
        · exact hr (Or.inr h)
        · rw [h] at hp
          exact Option.noConfusion hp

/-- C1 counterexample: a run whose credential file exists but contains no
usable key halts before scanning, submits nothing — and exits with code 0,
refuting the claimed non-zero exit code. -/
theorem c1_counterexample :
    load_private_keys worldC1.envLines = []
  ∧ (collect_funds worldC1).phase = Phase.noKeys
  ∧ (collect_funds worldC1).scannedAccounts = 0
  ∧ (collect_funds worldC1).submitted = 0
  ∧ mainExitCode worldC1 = 0 := by
  decide

/-- C1 witness: the amended statement applied to the empty-credential world. -/
theorem c1_amended_witness :
    (load_private_keys worldC1.envLines = [] ∨ worldC1.recipient = ""
      ∨ worldC1.recipient = "0x..." ∨ get_provider worldC1.probes = none)
  ∧ ((collect_funds worldC1).scannedAccounts = 0 ∧ (collect_funds worldC1).submitted = 0
    ∧ (collect_funds worldC1).successCount = 0
    ∧ (collect_funds worldC1).phase ≠ Phase.completed
    ∧ mainExitCode worldC1 = 0) :=
  ⟨Or.inl (by decide), c1_preconditions_amended worldC1 (Or.inl (by decide))⟩

/-- C5 (amended): the dispatcher does NOT support native-coin transfers: when
the selected asset is the native unit (address sentinel "BASE"), the run logs
that native collection is not yet supported and returns before dispatching,
so zero transactions are submitted and nothing is collected. -/
theorem c5_native_amended :
    ∀ (w : RunWorld) (sel : SelectedToken),
    w.selection = some sel → sel.address = "BASE" →
    (collect_funds w).submitted = 0 ∧ (collect_funds w).successCount = 0
  ∧ (collect_funds w).totalCollectedTokens = 0 ∧ (collect_funds w).totalCollectedNft = 0
  ∧ (collect_funds w).phase ≠ Phase.completed := by
  intro w sel hsel hbase
  by_cases hk : (load_private_keys w.envLines).isEmpty
  · simp [collect_funds, hk, emptyReport]
  · by_cases hr : w.recipient = "" ∨ w.recipient = "0x..."
    · simp [collect_funds, hk, hr, emptyReport]
    · rcases hp : get_provider w.probes with _ | p
      · simp [collect_funds, hk, hr, hp, emptyReport]
      · by_cases ha : ((load_private_keys w.envLines).filterMap w.fromKey).isEmpty
        · simp [collect_funds, hk, hr, hp, ha, emptyReport]
        · simp [collect_funds, hk, hr, hp, ha, hsel, hbase, emptyReport]

/-- C5 counterexample: a run where an account holds a positive native
balance, discovery reports it, and the user selects the native asset ends in
the native-unsupported phase with zero transactions submitted — there is no
native build/sign/submit/confirm path. -/
theorem c5_counterexample :
    worldC5.selection = some ⟨("BASE"), ("NATIVE"), ("BASE"), ("Base Native Token")⟩
  ∧ provC5.nativeBalance ("0xW1") = some 5
  ∧ (collect_funds worldC5).phase = Phase.nativeUnsupported
  ∧ (collect_funds worldC5).submitted = 0
  ∧ (collect_funds worldC5).successCount = 0 := by
  decide

/-- C5 witness: the amended statement applied to the native-selection world. -/
theorem c5_amended_witness :
    worldC5.selection = some ⟨("BASE"), ("NATIVE"), ("BASE"), ("Base Native Token")⟩
  ∧ ((collect_funds worldC5).submitted = 0 ∧ (collect_funds worldC5).successCount = 0
    ∧ (collect_funds worldC5).totalCollectedTokens = 0
    ∧ (collect_funds worldC5).totalCollectedNft = 0
    ∧ (collect_funds worldC5).phase ≠ Phase.completed) :=
  ⟨by decide,
    c5_native_amended worldC5 ⟨("BASE"), ("NATIVE"), ("BASE"), ("Base Native Token")⟩
      (by decide) (by decide)⟩

theorem classifyToken_mem_address (p : Provider) (a t : Addr) (info : TokenInfo)
    (h : info ∈ classifyToken p a t) : info.address = t := by
  unfold classifyToken at h
  by_cases h20 : 0 < (get_token_balance p a t).1
  · simp only [h20, if_true, List.mem_singleton] at h
    rw [h]
  · simp only [h20, if_false] at h
    rcases h721 : p.erc721Balance a t with _ | b
    · rw [h721] at h
      simp at h
    · rw [h721] at h
      by_cases hb : 0 < b
      · simp only [hb, if_true, List.mem_singleton] at h
        rw [h]
      · simp only [hb, if_false] at h
        simp at h

theorem classifyToken_eq_nil (p : Provider) (a t : Addr)
    (h20 : ∀ b d, p.erc20BalanceDecimals a t = some (b, d) → b = 0)
    (h721 : ∀ b, p.erc721Balance a t = some b → b = 0) :
    classifyToken p a t = [] := by
  have hb : (get_token_balance p a t).1 = 0 := by
    unfold get_token_balance
    rcases hq : p.erc20BalanceDecimals a t with _ | ⟨b, d⟩
    · rfl
    · simpa using h20 b d hq
  unfold classifyToken
  simp only [hb, Nat.lt_irrefl, if_false]
  rcases hq2 : p.erc721Balance a t with _ | b
  · rfl
  · have := h721 b hq2
    simp [this]

/-- C6: for every candidate contract address (a log-derived candidate, never
the native sentinel), if the fungible balance probe fails to yield a positive
balance (it raises, so `get_token_balance` reports 0, or reports balance 0)
and the non-fungible owned-count probe fails to yield a positive count, then
the candidate appears nowhere in that account's asset inventory. -/
theorem c6_probe_exclusion :
    ∀ (p : Provider) (address t : Addr), t ≠ ("BASE") →
    (∀ b d, p.erc20BalanceDecimals address t = some (b, d) → b = 0) →
    (∀ b, p.erc721Balance address t = some b → b = 0) →
    ∀ info ∈ scan_wallet_all_tokens p address, info.address ≠ t := by
  intro p address t hBASE h20 h721 info hinfo
  unfold scan_wallet_all_tokens at hinfo
  rcases List.mem_append.mp hinfo with hn | hf
  · rcases hq : p.nativeBalance address with _ | b
    · rw [hq] at hn
      simp at hn
    · rw [hq] at hn
      by_cases hb : 0 < b
      · simp only [hb, if_true, List.mem_singleton] at hn
        rw [hn]
        intro he
        exact hBASE he.symm
      · simp only [hb, if_false] at hn
        simp at hn
  · rcases List.mem_flatMap.mp hf with ⟨t', ht', hmem⟩
    by_cases heq : t' = t
    · subst heq
      rw [classifyToken_eq_nil p address t' h20 h721] at hmem
      simp at hmem
    · rw [classifyToken_mem_address p address t' info hmem]
      exact heq

/-- C6 witness: a candidate whose fungible probe reports balance 0 and whose
non-fungible probe raises is excluded from the wallet's inventory. -/
theorem c6_probe_exclusion_witness :
    (("0xT") : Addr) ≠ ("BASE")
  ∧ (∀ b d, provC6.erc20BalanceDecimals ("0xW") ("0xT") = some (b, d) → b = 0)
  ∧ (∀ b, provC6.erc721Balance ("0xW") ("0xT") = some b → b = 0)
  ∧ ∀ info ∈ scan_wallet_all_tokens provC6 ("0xW"), info.address ≠ ("0xT") := by
  refine ⟨by decide, ?_, ?_, ?_⟩
  · intro b d h
    simp [provC6] at h
    omega
  · intro b h
    simp [provC6] at h
  · exact c6_probe_exclusion provC6 ("0xW") ("0xT") (by decide)
      (fun b d h => by simp [provC6] at h; omega)
      (fun b h => by simp [provC6] at h)

theorem lookup_none_keys (l : List (Addr × AssetRecord)) (a : Addr)
    (h : l.lookup a = none) : ∀ e ∈ l, e.1 ≠ a := by
  induction l with
  | nil =>
    intro e he
    simp at he
  | cons hd tl ih =>
    rcases hd with ⟨k, v⟩
    intro e he
    simp only [List.lookup] at h
    cases hbeq : (a == k) with
    | true =>
      simp only [hbeq] at h
      exact Option.noConfusion h
    | false =>
      simp only [hbeq] at h
      rcases List.mem_cons.mp he with he1 | he2
      · subst he1
        exact fun hh => (beq_eq_false_iff_ne.mp hbeq) hh.symm
      · exact ih h e he2

theorem lookup_map_update (l : List (Addr × AssetRecord)) (a : Addr)
    (g : AssetRecord → AssetRecord) (r : AssetRecord) (h : l.lookup a = some r) :
    (l.map (fun e : Addr × AssetRecord => if e.1 = a then (e.1, g e.2) else e)).lookup a
      = some (g r) := by
  induction l with
  | nil => simp at h
  | cons hd tl ih =>
    rcases hd with ⟨k, v⟩
    by_cases hk : k = a
    · subst hk
      simp only [List.lookup, beq_self_eq_true] at h
      rw [Option.some_inj] at h
      subst h
      have hhead : (if (k, v).1 = k then ((k, v).1, g (k, v).2) else (k, v)) = (k, g v) := by
        simp
      rw [List.map_cons, hhead]
      simp [List.lookup]
    · have hbeq : (a == k) = false := beq_eq_false_iff_ne.mpr (fun he => hk he.symm)
      simp only [List.lookup, hbeq] at h
      have hhead : (if (k, v).1 = a then ((k, v).1, g (k, v).2) else (k, v)) = (k, v) := by
        simp [hk]
      rw [List.map_cons, hhead]
      simp only [List.lookup, hbeq]
      exact ih h

theorem addToken_lookup_none (acc : List (Addr × AssetRecord)) (w : Addr) (t : TokenInfo)
    (h : acc.lookup t.address = none) :
    addToken acc w t
      = acc ++ [(t.address,
          ⟨t.symbol, t.name, t.type, t.decimals, t.balanceFormatted,
            [(w, t.balanceFormatted)]⟩)] := by
  simp only [addToken, h]
  rw [List.map_append]
  have hne := lookup_none_keys acc t.address h
  congr 1
  · calc acc.map (fun e : Addr × AssetRecord =>
          if e.1 = t.address then
            (e.1, { e.2 with
              total_balance := e.2.total_balance + t.balanceFormatted,
              wallets := e.2.wallets ++ [(w, t.balanceFormatted)] })
          else e)
        = acc.map id := List.map_congr_left (fun e he => by simp [if_neg (hne e he)])
      _ = acc := List.map_id acc
  · simp

theorem addToken_lookup_some (acc : List (Addr × AssetRecord)) (w : Addr) (t : TokenInfo)
    (r : AssetRecord) (h : acc.lookup t.address = some r) :
    (addToken acc w t).lookup t.address
      = some ⟨r.symbol, r.name, r.type, r.decimals,
          r.total_balance + t.balanceFormatted, r.wallets ++ [(w, t.balanceFormatted)]⟩ := by
  simp only [addToken, h]
  exact lookup_map_update acc t.address
    (fun x => ⟨x.symbol, x.name, x.type, x.decimals, x.total_balance + t.balanceFormatted,
      x.wallets ++ [(w, t.balanceFormatted)]⟩) r h

theorem addToken_inv (acc : List (Addr × AssetRecord)) (w : Addr) (t : TokenInfo)
    (h : ∀ e ∈ acc, e.2.total_balance = (e.2.wallets.map Prod.snd).sum) :
    ∀ e ∈ addToken acc w t, e.2.total_balance = (e.2.wallets.map Prod.snd).sum := by
  have hacc' : ∀ e ∈ (match acc.lookup t.address with
      | none => acc ++ [(t.address, ⟨t.symbol, t.name, t.type, t.decimals, 0, []⟩)]
      | some _ => acc : List (Addr × AssetRecord)),
      e.2.total_balance = (e.2.wallets.map Prod.snd).sum := by
    rcases acc.lookup t.address with _ | r
    · intro e he
      rcases List.mem_append.mp he with h1 | h2
      · exact h e h1
      · rw [List.mem_singleton] at h2
        subst h2
        simp
    · exact h
  intro e he
  simp only [addToken] at he
  rcases List.mem_map.mp he with ⟨e', he', rfl⟩
  by_cases hk : e'.1 = t.address
  · simp only [if_pos hk]
    have hinv := hacc' e' he'
    simp [hinv, List.sum_append]
  · simp only [if_neg hk]
    exact hacc' e' he'

theorem foldl_addToken_inv (w : Addr) :
    ∀ (tokens : List TokenInfo) (acc : List (Addr × AssetRecord)),
      (∀ e ∈ acc, e.2.total_balance = (e.2.wallets.map Prod.snd).sum) →
      ∀ e ∈ tokens.foldl (fun a t => addToken a w t) acc,
        e.2.total_balance = (e.2.wallets.map Prod.snd).sum := by
  intro tokens
  induction tokens with
  | nil =>
    intro acc h e he
    exact h e he
  | cons t ts ih =>
    intro acc h e he
    rw [List.foldl_cons] at he
    exact ih (addToken acc w t) (addToken_inv acc w t h) e he

theorem scan_all_wallets_inv (p : Provider) :
    ∀ (accounts : List Addr) (acc : List (Addr × AssetRecord)),
      (∀ e ∈ acc, e.2.total_balance = (e.2.wallets.map Prod.snd).sum) →
      ∀ e ∈ accounts.foldl
          (fun acc a => (scan_wallet_all_tokens p a).foldl (fun acc2 t => addToken acc2 a t) acc)
          acc,
        e.2.total_balance = (e.2.wallets.map Prod.snd).sum := by
  intro accounts
  induction accounts with
  | nil =>
    intro acc h e he
    exact h e he
  | cons a as ih =>
    intro acc h e he
    rw [List.foldl_cons] at he
    exact ih _ (foldl_addToken_inv a (scan_wallet_all_tokens p a) acc h) e he

/-- C7: after aggregation every record's total-balance field equals the sum
of its per-wallet balance entries; a first sighting of an asset address
appends a record whose symbol, name, kind and decimals come from that
sighting, with the account's balance as total and a single per-account entry;
a subsequent sighting only adds the account's balance to the running total
and appends one per-account entry, leaving the metadata untouched. -/
theorem c7_aggregate_invariant :
    (∀ (p : Provider) (accounts : List Addr) (e : Addr × AssetRecord),
      e ∈ scan_all_wallets p accounts →
      e.2.total_balance = (e.2.wallets.map Prod.snd).sum)
  ∧ (∀ (acc : List (Addr × AssetRecord)) (w : Addr) (t : TokenInfo),
      acc.lookup t.address = none →
      addToken acc w t = acc ++ [(t.address,
        ⟨t.symbol, t.name, t.type, t.decimals, t.balanceFormatted,
          [(w, t.balanceFormatted)]⟩)])
  ∧ (∀ (acc : List (Addr × AssetRecord)) (w : Addr) (t : TokenInfo) (r : AssetRecord),
      acc.lookup t.address = some r →
      (addToken acc w t).lookup t.address
        = some ⟨r.symbol, r.name, r.type, r.decimals,
            r.total_balance + t.balanceFormatted,
            r.wallets ++ [(w, t.balanceFormatted)]⟩) :=
  ⟨fun p accounts e he => scan_all_wallets_inv p accounts [] (by simp) e he,
   addToken_lookup_none,
   addToken_lookup_some⟩

/-- C7 witness: a first sighting creates the record with the account's
balance, and aggregating one token held by two wallets yields a record whose
total 10 is the sum of its two per-wallet entries of 5. -/
theorem c7_aggregate_witness :
    (([] : List (Addr × AssetRecord)).lookup tokC7.address = none
      ∧ addToken [] ("0xW1") tokC7
        = [] ++ [(tokC7.address, ⟨tokC7.symbol, tokC7.name, tokC7.type, tokC7.decimals,
            tokC7.balanceFormatted, [(("0xW1"), tokC7.balanceFormatted)]⟩)])
  ∧ ((("0xT"), recC7) ∈ scan_all_wallets provC7 [("0xW1"), ("0xW2")]
      ∧ recC7.total_balance = (recC7.wallets.map Prod.snd).sum) := by
  have hscan : scan_all_wallets provC7 [("0xW1"), ("0xW2")] = [(("0xT"), recC7)] := by
    simp [scan_all_wallets, scan_wallet_all_tokens, classifyToken, get_token_balance,
      get_token_symbol, get_token_name, addToken, provC7, recC7]
    norm_num
  refine ⟨⟨rfl, c7_aggregate_invariant.2.1 [] ("0xW1") tokC7 rfl⟩, ?_, ?_⟩
  · rw [hscan]
    exact List.mem_singleton.mpr rfl
  · exact c7_aggregate_invariant.1 provC7 [("0xW1"), ("0xW2")] (("0xT"), recC7)
      (by rw [hscan]; exact List.mem_singleton.mpr rfl)

theorem send_nonce_eq (o : TxOracle) (c : Chain) :
    (send_erc20_transaction o c).1.nonceUsed = get_transaction_count c := by
  rcases o with ⟨s, sb, cf⟩
  cases s <;> cases sb <;> cases cf <;> rfl

theorem send_nft_nonce_eq (o : TxOracle) (t : Nat) (c : Chain) :
    (send_nft_transaction o t c).1.nonceUsed = get_transaction_count c := by
  rcases o with ⟨s, sb, cf⟩
  cases s <;> cases sb <;> cases cf <;> rfl

theorem send_success_chain (o : TxOracle) (c : Chain)
    (h : (send_erc20_transaction o c).1.result.success = true) :
    (send_erc20_transaction o c).2 = ⟨c.txCount + 1⟩ := by
  rcases o with ⟨s, sb, cf⟩
  cases s <;> cases sb <;> cases cf <;> simp_all [send_erc20_transaction]

/-- C8: both dispatch functions read the transaction sequence number fresh
from the chain immediately before building (the nonce placed in the built
transaction is always the chain's current count at that moment, never a
cached value), and when the first of two sequential transfers from the same
account confirms, the second reads the incremented count, so the two
transfers carry distinct, increasing sequence numbers. -/
theorem c8_fresh_nonce :
    ∀ (o1 o2 : TxOracle) (c : Chain),
    (send_erc20_transaction o1 c).1.nonceUsed = get_transaction_count c
  ∧ (send_nft_transaction o1 0 c).1.nonceUsed = get_transaction_count c
  ∧ (send_erc20_transaction o2 (send_erc20_transaction o1 c).2).1.nonceUsed
      = get_transaction_count (send_erc20_transaction o1 c).2
  ∧ ((send_erc20_transaction o1 c).1.result.success = true →
      (send_erc20_transaction o2 (send_erc20_transaction o1 c).2).1.nonceUsed
        = (send_erc20_transaction o1 c).1.nonceUsed + 1
      ∧ (send_erc20_transaction o1 c).1.nonceUsed
        < (send_erc20_transaction o2 (send_erc20_transaction o1 c).2).1.nonceUsed) := by
  intro o1 o2 c
  refine ⟨send_nonce_eq o1 c, send_nft_nonce_eq o1 0 c, send_nonce_eq o2 _, ?_⟩
  intro hs
  have hchain := send_success_chain o1 c hs
  constructor
  · rw [hchain, send_nonce_eq o2 ⟨c.txCount + 1⟩, send_nonce_eq o1 c]
    rfl
  · rw [hchain, send_nonce_eq o2 ⟨c.txCount + 1⟩, send_nonce_eq o1 c]
    exact Nat.lt_succ_self _

/-- C8 witness: two sequential confirmed transfers from a chain whose count
is 7 carry nonces 7 and 8. -/
theorem c8_fresh_nonce_witness :
    (send_erc20_transaction oOk ⟨7⟩).1.result.success = true
  ∧ ((send_erc20_transaction oOk (send_erc20_transaction oOk ⟨7⟩).2).1.nonceUsed
      = (send_erc20_transaction oOk ⟨7⟩).1.nonceUsed + 1
    ∧ (send_erc20_transaction oOk ⟨7⟩).1.nonceUsed
      < (send_erc20_transaction oOk (send_erc20_transaction oOk ⟨7⟩).2).1.nonceUsed) :=
  ⟨rfl, (c8_fresh_nonce oOk oOk ⟨7⟩).2.2.2 rfl⟩

/-- C9: evaluation of the NFT dispatch loop at the failing input `[5, 5]`
(two copies of the same identifier, every send confirming): the loop does
issue exactly one transfer per identifier in order, but because the source
computes "is this the last item" with `token_ids.index(token_id)` — the FIRST
occurrence of the identifier — the inter-operation delay also runs after the
final transfer, instead of only between the two transfers as the claim
demands. -/
theorem c9_duplicate_delay :
    (nftTransferLoop (fun _ => oOk) [5, 5] [5, 5] 0 ⟨0⟩).1.sentIds = [5, 5]
  ∧ (nftTransferLoop (fun _ => oOk) [5, 5] [5, 5] 0 ⟨0⟩).1.sleeps = [true, true]
  ∧ (nftTransferLoop (fun _ => oOk) [5, 5] [5, 5] 0 ⟨0⟩).1.sleeps ≠ [true, false] := by
  refine ⟨by decide, by decide, by decide⟩

/-- C10: `get_token_balance` is total — a raising balance/decimals call
yields `(0, 18)` — and consequently the ERC-20 dispatch path treats a wallet
whose balance query fails exactly like a wallet with a zero balance: it is
silently skipped, no transfer is attempted, and no dispatch failure is
counted. -/
theorem c10_balance_total :
    (∀ (p : Provider) (wallet token : Addr),
      p.erc20BalanceDecimals wallet token = none →
      get_token_balance p wallet token = (0, 18))
  ∧ (∀ (p p' : Provider) (o : TxOracle) (wallet token : Addr) (c : Chain) (d : Nat),
      p.erc20BalanceDecimals wallet token = none →
      p'.erc20BalanceDecimals wallet token = some (0, d) →
      processWalletErc20 p o wallet token c = (⟨false, 0, 0, 0, 0⟩, c)
      ∧ processWalletErc20 p o wallet token c = processWalletErc20 p' o wallet token c) := by
  constructor
  · intro p wallet token h
    unfold get_token_balance
    rw [h]
    rfl
  · intro p p' o wallet token c d h h'
    have hb : get_token_balance p wallet token = (0, 18) := by
      unfold get_token_balance
      rw [h]
      rfl
    have hb' : get_token_balance p' wallet token = (0, d) := by
      unfold get_token_balance
      rw [h']
      rfl
    constructor
    · unfold processWalletErc20
      rw [hb]
      simp
    · unfold processWalletErc20
      rw [hb, hb']
      simp

/-- C10 witness: a provider whose balance call raises is processed exactly
like one reporting a zero balance — skipped, with no error counted. -/
theorem c10_balance_total_witness :
    provC5.erc20BalanceDecimals ("0xW1") ("0xT") = none
  ∧ provC10.erc20BalanceDecimals ("0xW1") ("0xT") = some (0, 18)
  ∧ get_token_balance provC5 ("0xW1") ("0xT") = (0, 18)
  ∧ (processWalletErc20 provC5 oOk ("0xW1") ("0xT") ⟨0⟩ = (⟨false, 0, 0, 0, 0⟩, ⟨0⟩)
    ∧ processWalletErc20 provC5 oOk ("0xW1") ("0xT") ⟨0⟩
        = processWalletErc20 provC10 oOk ("0xW1") ("0xT") ⟨0⟩) :=
  ⟨rfl, rfl, c10_balance_total.1 provC5 ("0xW1") ("0xT") rfl,
   c10_balance_total.2 provC5 provC10 oOk ("0xW1") ("0xT") ⟨0⟩ 18 rfl rfl⟩
